import Mathlib

/-!
Shallow embedding of the GenresFox adaptive image-resizing and compression
pipeline (the `ImageProcessor` module and the image worker).

Numbers manipulated by the JavaScript source are IEEE doubles; every value
that actually occurs in the embedded fragments (pixel dimensions, byte
sizes, quality parameters, scale ratios) is an exact rational, so we model
JS numbers by `ℚ` (and integer-valued quantities by `ℕ`/`ℤ`), with JS
`Math.round` modelled exactly (round half toward positive infinity).
-/

namespace GenresFox

/-- JS `Math.round`: nearest integer, rounding halves toward `+∞`.
Defined via the executable `Rat.floor` so that concrete runs evaluate. -/
def jsRound (q : ℚ) : ℤ := (q + 1 / 2).floor

/-! ### Configuration constants

From the `CONFIG` object of the `ImageProcessor` module and the worker's
`CONFIG` (`src/src/image-worker.js`). -/

def MAX_WIDTH : ℕ := 3840
def MAX_HEIGHT : ℕ := 2160
def PREVIEW_MAX_WIDTH : ℕ := 800
def PREVIEW_MAX_HEIGHT : ℕ := 600
def LARGE_IMAGE_THRESHOLD : ℕ := 10 * 1024 * 1024
def HUGE_IMAGE_THRESHOLD : ℕ := 30 * 1024 * 1024
def MAX_PIXELS : ℕ := 50 * 1000 * 1000
def CHUNK_SIZE : ℕ := 2048
def MAX_FILE_SIZE : ℕ := 50 * 1024 * 1024
def TARGET_OUTPUT_SIZE : ℕ := 5 * 1024 * 1024

/-- Worker `CONFIG.QUALITY_HIGH` (0.95). -/
def QUALITY_HIGH : ℚ := 19 / 20

/-- Worker `CONFIG.QUALITY_MEDIUM` (0.88). -/
def QUALITY_MEDIUM : ℚ := 22 / 25

/-! ### Dimension planner -/

/-- JS `a || b`: `b` when `a` is absent (`undefined`) or `0` (falsy). -/
def jsOrDefault (a : Option ℕ) (b : ℕ) : ℕ :=
  match a with
  | none => b
  | some v => if v = 0 then b else v

/-- `calculateDimensions` from `src/src/image-worker.js` (lines 52-68); the
main-thread `_calculateDimensions` of the `ImageProcessor` module is the same
computation with `screenWidth`/`screenHeight` read from
`window.screen.{width,height} * devicePixelRatio` instead of taken as
arguments, so both are embedded by this one definition (the screen hint is an
explicit `Option ℕ` argument). -/
def calculateDimensions (width height maxWidth maxHeight : ℕ)
    (screenWidth screenHeight : Option ℕ) : ℤ × ℤ :=
  let targetWidth := min (jsOrDefault screenWidth maxWidth) maxWidth
  let targetHeight := min (jsOrDefault screenHeight maxHeight) maxHeight
  if width ≤ targetWidth ∧ height ≤ targetHeight then
    ((width : ℤ), (height : ℤ))
  else
    let scaleX : ℚ := (targetWidth : ℚ) / (width : ℚ)
    let scaleY : ℚ := (targetHeight : ℚ) / (height : ℚ)
    let scale := min scaleX scaleY
    (jsRound ((width : ℚ) * scale), jsRound ((height : ℚ) * scale))

/-- The effective target width used by `calculateDimensions`. -/
def effectiveTargetWidth (maxWidth : ℕ) (screenWidth : Option ℕ) : ℕ :=
  min (jsOrDefault screenWidth maxWidth) maxWidth

/-- The effective target height used by `calculateDimensions`. -/
def effectiveTargetHeight (maxHeight : ℕ) (screenHeight : Option ℕ) : ℕ :=
  min (jsOrDefault screenHeight maxHeight) maxHeight

/-! ### Resize strategy selector

The strategy branch of `processImage` (ImageProcessor module): chunked when
`file.size > CONFIG.HUGE_IMAGE_THRESHOLD`, otherwise multi-step when
`file.size > CONFIG.LARGE_IMAGE_THRESHOLD || img.width > targetWidth * 3 ||
img.height > targetHeight * 3`, otherwise direct. -/

inductive Strategy where
  | direct
  | multistep
  | chunked
deriving DecidableEq, Repr

def chooseStrategy (fileSize width height targetWidth targetHeight : ℕ) : Strategy :=
  if fileSize > HUGE_IMAGE_THRESHOLD then
    .chunked
  else if fileSize > LARGE_IMAGE_THRESHOLD ∨ width > targetWidth * 3 ∨
      height > targetHeight * 3 then
    .multistep
  else
    .direct

/-- The scale factor computed by the planners for a source that does not fit
the effective target box: `Math.min(targetWidth / width, targetHeight / height)`. -/
def plannedScale (width height targetWidth targetHeight : ℕ) : ℚ :=
  min ((targetWidth : ℚ) / (width : ℚ)) ((targetHeight : ℚ) / (height : ℚ))

/-! ### Multi-step downscaling engine

`_processWithSteps` (ImageProcessor module): while either axis is more than
twice its target, replace it by `Math.max(target, Math.round(current / 2))`;
then one final exact-size pass. The source's `while` loop is embedded with an
explicit fuel argument; `multistepLoop_exits` proves that fuel
`srcWidth + srcHeight` always suffices, which is the source loop's
termination. `Math.round(current / 2)` on a natural is `(current + 1) / 2`
in truncated division. -/

def multistepLoop (targetWidth targetHeight : ℕ) : ℕ → ℕ → ℕ → ℕ × ℕ
  | 0, w, h => (w, h)
  | fuel + 1, w, h =>
    if targetWidth * 2 < w ∨ targetHeight * 2 < h then
      multistepLoop targetWidth targetHeight fuel
        (max targetWidth ((w + 1) / 2)) (max targetHeight ((h + 1) / 2))
    else (w, h)

def processWithSteps (srcWidth srcHeight targetWidth targetHeight : ℕ) : ℕ × ℕ :=
  let c := multistepLoop targetWidth targetHeight (srcWidth + srcHeight) srcWidth srcHeight
  if c.1 ≠ targetWidth ∨ c.2 ≠ targetHeight then (targetWidth, targetHeight) else c

/-! ### Chunked processing

`_processInChunks` (ImageProcessor module) and the chunked branch of
`processImageData` (`src/src/image-worker.js`, lines 134-165) tile the source
into `CHUNK_SIZE`-pixel squares and compute, for the chunk at grid position
`(cx, cy)`, a destination rectangle
`dx = Math.round(sx * scaleX)`, `dy = Math.round(sy * scaleY)`,
`dw = Math.max(1, Math.round(sw * scaleX))`,
`dh = Math.max(1, Math.round(sh * scaleY))` where
`scaleX = targetWidth / srcWidth`, `sx = cx * CHUNK_SIZE`,
`sw = Math.min(CHUNK_SIZE, srcWidth - sx)` (and symmetrically in `y`). -/

/-- `Math.ceil(n / CHUNK_SIZE)`: the number of chunks along an axis. -/
def chunksCount (n : ℕ) : ℕ := (n + CHUNK_SIZE - 1) / CHUNK_SIZE

structure Rect where
  x : ℤ
  y : ℤ
  w : ℤ
  h : ℤ
deriving DecidableEq, Repr

/-- Destination rectangle of the chunk at grid position `(cx, cy)`. -/
def chunkRect (srcWidth srcHeight targetWidth targetHeight cx cy : ℕ) : Rect :=
  let scaleX : ℚ := (targetWidth : ℚ) / (srcWidth : ℚ)
  let scaleY : ℚ := (targetHeight : ℚ) / (srcHeight : ℚ)
  let sx := cx * CHUNK_SIZE
  let sy := cy * CHUNK_SIZE
  let sw := min CHUNK_SIZE (srcWidth - sx)
  let sh := min CHUNK_SIZE (srcHeight - sy)
  { x := jsRound ((sx : ℚ) * scaleX)
    y := jsRound ((sy : ℚ) * scaleY)
    w := max 1 (jsRound ((sw : ℚ) * scaleX))
    h := max 1 (jsRound ((sh : ℚ) * scaleY)) }

/-- The skip test applied to each tile: `if (dw < 1 || dh < 1) continue;`
(worker: draw only `if (dw >= 1 && dh >= 1)`). -/
def chunkSkipped (r : Rect) : Bool := decide (r.w < 1) || decide (r.h < 1)

/-- Two destination rectangles cover no common pixel. -/
def rectDisjoint (r s : Rect) : Prop :=
  r.x + r.w ≤ s.x ∨ s.x + s.w ≤ r.x ∨ r.y + r.h ≤ s.y ∨ s.y + s.h ≤ r.y

/-! ### Quality optimizer

`optimizeBlobSize` from `src/src/image-worker.js` (lines 224-295). Encoding a
canvas at a given quality is the worker's only interaction with the encoder,
so it is abstracted as a deterministic oracle `encode : quality → byte size`;
a blob is represented by its `(quality, size)` pair. The model also records
the list of encode attempts made, in order. -/

def TOLERANCE : ℚ := 1 / 20

/-- `Math.max(0.7, Math.min(0.98, QUALITY_HIGH + (complexity - 0.5) * 0.1))`. -/
def adjustedQuality (complexity : ℚ) : ℚ :=
  max (7 / 10) (min (49 / 50) (QUALITY_HIGH + (complexity - 1 / 2) * (1 / 10)))

structure OptState where
  minQ : ℚ
  maxQ : ℚ
  bestQ : ℚ
  bestSize : ℚ
  attempts : List (ℚ × ℚ)
deriving DecidableEq, Repr

/-- One iteration of the `for (const stepQuality of qualitySteps)` loop. -/
def progressiveStep (encode : ℚ → ℚ) (targetSize : ℚ) (st : OptState)
    (stepQuality : ℚ) : OptState :=
  if stepQuality < st.minQ ∨ stepQuality > st.maxQ then st
  else
    let testSize := encode stepQuality
    let st1 := { st with attempts := st.attempts ++ [(stepQuality, testSize)] }
    if testSize ≤ targetSize * (1 + TOLERANCE) then
      if stepQuality > st1.bestQ ∨ st1.bestSize > targetSize then
        { st1 with maxQ := stepQuality, bestQ := stepQuality, bestSize := testSize }
      else st1
    else { st1 with minQ := stepQuality }

/-- The `for (let i = 0; i < 5; i++)` fine-tuning binary search, with its
early return when a size lands within tolerance of the budget. -/
def binarySearchLoop (encode : ℚ → ℚ) (targetSize : ℚ) :
    ℕ → OptState → (ℚ × ℚ) × List (ℚ × ℚ)
  | 0, st => ((st.bestQ, st.bestSize), st.attempts)
  | n + 1, st =>
    let q := (st.minQ + st.maxQ) / 2
    let s := encode q
    let att := st.attempts ++ [(q, s)]
    if s > targetSize * (1 + TOLERANCE) then
      binarySearchLoop encode targetSize n { st with maxQ := q, attempts := att }
    else if s < targetSize * (1 - TOLERANCE) then
      if q > st.bestQ then
        binarySearchLoop encode targetSize n
          { st with minQ := q, bestQ := q, bestSize := s, attempts := att }
      else
        binarySearchLoop encode targetSize n { st with minQ := q, attempts := att }
    else ((q, s), att)

/-- `optimizeBlobSize(canvas, targetSize, format)`: returns the resulting
blob as a `(quality, size)` pair together with the ordered list of encode
attempts performed. -/
def optimizeBlobSize (encode : ℚ → ℚ) (targetSize complexity : ℚ) :
    (ℚ × ℚ) × List (ℚ × ℚ) :=
  let quality := adjustedQuality complexity
  let size := encode quality
  if size ≤ targetSize then ((quality, size), [(quality, size)])
  else
    let qualitySteps :=
      [quality, quality * (9 / 10), quality * (4 / 5), QUALITY_MEDIUM, 3 / 4, 7 / 10]
    let st0 : OptState := ⟨1 / 2, quality, quality, size, [(quality, size)]⟩
    let st := qualitySteps.foldl (progressiveStep encode targetSize) st0
    if st.bestSize > targetSize * (1 + TOLERANCE) then
      binarySearchLoop encode targetSize 5 st
    else ((st.bestQ, st.bestSize), st.attempts)

/-- A concrete encoder oracle (used by the C9 counterexample): byte sizes
104, 106, 102 at qualities 0.95, 0.855, 0.88 and 101 elsewhere. -/
def encOracle (q : ℚ) : ℚ :=
  if q = 19 / 20 then 104 else if q = 171 / 200 then 106 else if q = 22 / 25 then 102 else 101

/-! ### WASM bump allocator and accelerated resize path

`wasmAlloc` and `processImageDataWithWasm` from `src/src/image-worker.js`
(lines 391-409 and 424-548). `memory.grow` either succeeds (extending the
heap by whole pages) or throws; that outcome is the `growOk` oracle. The
result canvas is abstracted to `Unit`: the claims only concern whether the
call returns `null` (here `none`). -/

def WASM_PAGE_SIZE : ℕ := 64 * 1024

/-- `(size + 7) & ~7`: round up to a multiple of 8. -/
def alignedSize (size : ℕ) : ℕ := ((size + 7) / 8) * 8

structure WasmHeap where
  allocPtr : ℕ
  heapCapacity : ℕ
deriving DecidableEq, Repr

/-- The bump allocator: returns the allocated pointer and the new heap state,
or `none` when growth is needed and `memory.grow` throws. -/
def wasmAlloc (growOk : Bool) (size : ℕ) (st : WasmHeap) : Option (ℕ × WasmHeap) :=
  let a := alignedSize size
  let needed := st.allocPtr + a
  if needed > st.heapCapacity then
    if growOk then
      let growPages := (needed - st.heapCapacity + WASM_PAGE_SIZE - 1) / WASM_PAGE_SIZE
      some (st.allocPtr,
        ⟨st.allocPtr + a, st.heapCapacity + growPages * WASM_PAGE_SIZE⟩)
    else none
  else some (st.allocPtr, ⟨st.allocPtr + a, st.heapCapacity⟩)

/-- `processImageDataWithWasm`, reduced to its allocation/return skeleton:
`hasMemory` and `hasResizeFn` reflect the export probes, `hasAllocMemoryFn`
whether the module exports `alloc_memory` (with `allocMemoryFn` as that
export), `resizeErrorCode` the kernel's return code, and the heap starts
with `WASM.allocPtr = 0` (reset at the top of every call). -/
def processImageDataWithWasm (hasMemory hasResizeFn hasAllocMemoryFn growOk : Bool)
    (allocMemoryFn : ℕ → ℕ) (resizeErrorCode : ℕ)
    (srcSize dstSize heapCapacity : ℕ) : Option Unit :=
  if ¬ hasMemory then none
  else if ¬ hasResizeFn then none
  else
    let st0 : WasmHeap := ⟨0, heapCapacity⟩
    let ptrs : Option (ℕ × ℕ) :=
      if hasAllocMemoryFn then some (allocMemoryFn srcSize, allocMemoryFn dstSize)
      else
        match wasmAlloc growOk srcSize st0 with
        | none => none
        | some (srcPtr, st1) =>
          match wasmAlloc growOk dstSize st1 with
          | none => none
          | some (dstPtr, _) => some (srcPtr, dstPtr)
    match ptrs with
    | none => none
    | some (srcPtr, dstPtr) =>
      if srcPtr = 0 ∨ dstPtr = 0 then none
      else if resizeErrorCode ≠ 0 then none
      else some ()

/-! ### Orchestrator: validation and preview ordering in `processImage`

`processImage` (ImageProcessor module, lines 1113-1227) with its observable
decode / pixel-buffer-allocation / encode actions recorded as an event
trace. The file-size ceiling is checked first; then `generatePreview`
decodes the file and renders it onto a preview-sized canvas; then the full
image is decoded; only then is the pixel-count ceiling checked. -/

inductive PipelineEvent where
  | decode
  | allocSurface (width height : ℤ)
  | encode
deriving DecidableEq, Repr

inductive PipelineError where
  | fileTooLarge
  | resolutionTooHigh
deriving DecidableEq, Repr

/-- The event trace and outcome of `processImage` up to (and including) the
validation checks; on valid input the trace continues with the main resize
surface allocation and output encoding. -/
def processImageRun (fileSize width height maxWidth maxHeight : ℕ)
    (screenWidth screenHeight : Option ℕ) : List PipelineEvent × Option PipelineError :=
  if fileSize > MAX_FILE_SIZE then ([], some .fileTooLarge)
  else
    let pv := calculateDimensions width height PREVIEW_MAX_WIDTH PREVIEW_MAX_HEIGHT
      screenWidth screenHeight
    let previewEvents :=
      [PipelineEvent.decode, PipelineEvent.allocSurface pv.1 pv.2, PipelineEvent.encode]
    let events := previewEvents ++ [PipelineEvent.decode]
    if width * height > MAX_PIXELS then (events, some .resolutionTooHigh)
    else
      let dims := calculateDimensions width height maxWidth maxHeight screenWidth screenHeight
      (events ++ [PipelineEvent.allocSurface dims.1 dims.2, PipelineEvent.encode], none)

/-! ## Basic lemmas about the embedding -/

theorem jsRound_def (q : ℚ) : jsRound q = ⌊q + 1 / 2⌋ := by
  rw [jsRound, Rat.floor_def', ← Rat.floor_def]

theorem jsRound_intCast (n : ℤ) : jsRound (n : ℚ) = n := by
  rw [jsRound_def, add_comm, Int.floor_add_int]
  norm_num

theorem jsRound_natCast (n : ℕ) : jsRound (n : ℚ) = n := by
  simpa using jsRound_intCast (n : ℤ)

/-- The halving loop terminates within `w + h` iterations, exiting in a state
where both axes are between the target and twice the target. -/
theorem multistepLoop_exits (tW tH : ℕ) (h1 : 1 ≤ tW) (h2 : 1 ≤ tH) :
    ∀ fuel w h, tW ≤ w → tH ≤ h → w + h ≤ fuel + tW + tH →
      tW ≤ (multistepLoop tW tH fuel w h).1 ∧ (multistepLoop tW tH fuel w h).1 ≤ tW * 2 ∧
      tH ≤ (multistepLoop tW tH fuel w h).2 ∧ (multistepLoop tW tH fuel w h).2 ≤ tH * 2 := by
  intro fuel
  induction fuel with
  | zero =>
    intro w h hw hh hsum
    simp only [multistepLoop]
    omega
  | succ n ih =>
    intro w h hw hh hsum
    simp only [multistepLoop]
    by_cases hcond : tW * 2 < w ∨ tH * 2 < h
    · rw [if_pos hcond]
      have hwle : (w + 1) / 2 ≤ w := by omega
      have hhle : (h + 1) / 2 ≤ h := by omega
      have hwub : max tW ((w + 1) / 2) ≤ w := max_le hw hwle
      have hhub : max tH ((h + 1) / 2) ≤ h := max_le hh hhle
      have hsum' : max tW ((w + 1) / 2) + max tH ((h + 1) / 2) ≤ n + tW + tH := by
        rcases hcond with hc | hc
        · have hlt : max tW ((w + 1) / 2) < w := max_lt (by omega) (by omega)
          omega
        · have hlt : max tH ((h + 1) / 2) < h := max_lt (by omega) (by omega)
          omega
      exact ih _ _ (le_max_left _ _) (le_max_left _ _) hsum'
    · rw [if_neg hcond]
      push_neg at hcond
      exact ⟨hw, by omega, hh, by omega⟩

/-- The final exact-size pass makes the output of `processWithSteps` exactly
the target dimensions, whatever state the loop ends in. -/
theorem processWithSteps_output (w h tW tH : ℕ) :
    processWithSteps w h tW tH = (tW, tH) := by
  unfold processWithSteps
  by_cases hc : (multistepLoop tW tH (w + h) w h).1 ≠ tW ∨
      (multistepLoop tW tH (w + h) w h).2 ≠ tH
  · rw [if_pos hc]
  · rw [if_neg hc]
    push_neg at hc
    exact Prod.ext_iff.mpr ⟨hc.1, hc.2⟩

/-! ## Claim C2 -/

/-- C2 counterexample: a 3000×1000 source lies within the configured maxima
(3840×2160), yet with a 1920×1080 screen hint (the main-thread planner always
feeds `window.screen.{width,height} * devicePixelRatio` in) the planner
downscales it to 1920×640 instead of returning it unchanged. -/
theorem c2_counterexample :
    3000 ≤ MAX_WIDTH ∧ 1000 ≤ MAX_HEIGHT ∧
    calculateDimensions 3000 1000 MAX_WIDTH MAX_HEIGHT (some 1920) (some 1080) ≠
      (3000, 1000) := by
  refine ⟨by norm_num [MAX_WIDTH], by norm_num [MAX_HEIGHT], ?_⟩
  norm_num [calculateDimensions, jsOrDefault, jsRound_def, min_def, MAX_WIDTH, MAX_HEIGHT]

/-- C2 (amended): the planner returns the source dimensions exactly whenever
the source fits within the *effective* target box
`min(screen ∥ max, max)` on both axes — in particular, when no screen hint is
given, whenever the source is within the configured maxima. -/
theorem c2_within_effective_target_identity (width height maxWidth maxHeight : ℕ)
    (sW sH : Option ℕ)
    (hw : width ≤ effectiveTargetWidth maxWidth sW)
    (hh : height ≤ effectiveTargetHeight maxHeight sH) :
    calculateDimensions width height maxWidth maxHeight sW sH =
      ((width : ℤ), (height : ℤ)) := by
  simp only [effectiveTargetWidth, effectiveTargetHeight] at hw hh
  simp only [calculateDimensions]
  rw [if_pos ⟨hw, hh⟩]

/-- C2 witness: a 400×300 source with no screen hint is returned unchanged. -/
theorem c2_within_effective_target_identity_witness :
    400 ≤ effectiveTargetWidth 3840 none ∧ 300 ≤ effectiveTargetHeight 2160 none ∧
    calculateDimensions 400 300 3840 2160 none none = (400, 300) :=
  ⟨by norm_num [effectiveTargetWidth, jsOrDefault],
   by norm_num [effectiveTargetHeight, jsOrDefault],
   by
    have h := c2_within_effective_target_identity 400 300 3840 2160 none none
      (by norm_num [effectiveTargetWidth, jsOrDefault])
      (by norm_num [effectiveTargetHeight, jsOrDefault])
    exact_mod_cast h⟩

/-! ## Claim C3 -/

/-- C3 counterexample: a 1×10000 source does not fit the 3840×2160 box, and
the planner returns width `Math.round(1 * min(3840/1, 2160/10000)) = 0` —
a returned dimension of `0`, contradicting the claimed `≥ 1` bound. -/
theorem c3_counterexample :
    ¬ (1 ≤ effectiveTargetWidth MAX_WIDTH none ∧
        10000 ≤ effectiveTargetHeight MAX_HEIGHT none) ∧
    (calculateDimensions 1 10000 MAX_WIDTH MAX_HEIGHT none none).1 = 0 := by
  constructor
  · norm_num [effectiveTargetWidth, effectiveTargetHeight, jsOrDefault, MAX_WIDTH, MAX_HEIGHT]
  · norm_num [calculateDimensions, jsOrDefault, jsRound_def, min_def, MAX_WIDTH, MAX_HEIGHT]

/-- C3 (amended): for a source that does not fit the effective target box the
planner computes `scale = min(targetW/srcW, targetH/srcH)` and returns both
dimensions rounded to the nearest integer; at least one returned dimension
(the one on the binding axis) is ≥ 1, but the other may round to 0 — there is
no `≥ 1` clamping. -/
theorem c3_scale_round_amended (width height maxWidth maxHeight : ℕ) (sW sH : Option ℕ)
    (hw : 1 ≤ width) (hh : 1 ≤ height)
    (htW : 1 ≤ effectiveTargetWidth maxWidth sW)
    (htH : 1 ≤ effectiveTargetHeight maxHeight sH)
    (hnofit : ¬ (width ≤ effectiveTargetWidth maxWidth sW ∧
        height ≤ effectiveTargetHeight maxHeight sH)) :
    calculateDimensions width height maxWidth maxHeight sW sH =
      (jsRound (width * plannedScale width height (effectiveTargetWidth maxWidth sW)
          (effectiveTargetHeight maxHeight sH)),
       jsRound (height * plannedScale width height (effectiveTargetWidth maxWidth sW)
          (effectiveTargetHeight maxHeight sH))) ∧
    (1 ≤ (calculateDimensions width height maxWidth maxHeight sW sH).1 ∨
      1 ≤ (calculateDimensions width height maxWidth maxHeight sW sH).2) := by
  have hw0 : ((width : ℕ) : ℚ) ≠ 0 := Nat.cast_ne_zero.mpr (by omega)
  have hh0 : ((height : ℕ) : ℚ) ≠ 0 := Nat.cast_ne_zero.mpr (by omega)
  have heq : calculateDimensions width height maxWidth maxHeight sW sH =
      (jsRound (width * plannedScale width height (effectiveTargetWidth maxWidth sW)
          (effectiveTargetHeight maxHeight sH)),
       jsRound (height * plannedScale width height (effectiveTargetWidth maxWidth sW)
          (effectiveTargetHeight maxHeight sH))) := by
    simp only [effectiveTargetWidth, effectiveTargetHeight] at hnofit
    simp only [calculateDimensions, plannedScale, effectiveTargetWidth, effectiveTargetHeight]
    rw [if_neg hnofit]
  refine ⟨heq, ?_⟩
  rw [heq]
  rcases min_cases ((effectiveTargetWidth maxWidth sW : ℚ) / (width : ℚ))
      ((effectiveTargetHeight maxHeight sH : ℚ) / (height : ℚ)) with ⟨hmin, -⟩ | ⟨hmin, -⟩
  · left
    have hval : (width : ℚ) * plannedScale width height (effectiveTargetWidth maxWidth sW)
        (effectiveTargetHeight maxHeight sH) = ((effectiveTargetWidth maxWidth sW : ℕ) : ℚ) := by
      rw [plannedScale, hmin]
      field_simp
    rw [hval, jsRound_natCast]
    dsimp only
    exact_mod_cast htW
  · right
    have hval : (height : ℚ) * plannedScale width height (effectiveTargetWidth maxWidth sW)
        (effectiveTargetHeight maxHeight sH) = ((effectiveTargetHeight maxHeight sH : ℕ) : ℚ) := by
      rw [plannedScale, hmin]
      field_simp
    rw [hval, jsRound_natCast]
    dsimp only
    exact_mod_cast htH

/-- C3 witness: 6000×4000 against the 3840×2160 box scales to 3240×2160
(binding axis height), both components matching the scale-and-round formula
and the height component being ≥ 1. -/
theorem c3_scale_round_amended_witness :
    calculateDimensions 6000 4000 3840 2160 none none =
      (jsRound (6000 * plannedScale 6000 4000 (effectiveTargetWidth 3840 none)
          (effectiveTargetHeight 2160 none)),
       jsRound (4000 * plannedScale 6000 4000 (effectiveTargetWidth 3840 none)
          (effectiveTargetHeight 2160 none))) ∧
    (1 ≤ (calculateDimensions 6000 4000 3840 2160 none none).1 ∨
      1 ≤ (calculateDimensions 6000 4000 3840 2160 none none).2) :=
  c3_scale_round_amended 6000 4000 3840 2160 none none (by norm_num) (by norm_num)
    (by norm_num [effectiveTargetWidth, jsOrDefault])
    (by norm_num [effectiveTargetHeight, jsOrDefault])
    (by norm_num [effectiveTargetWidth, effectiveTargetHeight, jsOrDefault])

/-! ## Claim C4 -/

/-- C4: the strategy decision table, evaluated in order with first match
winning — chunked when the file byte size exceeds the huge threshold;
otherwise multistep when it exceeds the large threshold or a source dimension
exceeds 3× the corresponding target dimension; otherwise direct. -/
theorem c4_strategy_decision_table (fileSize width height targetWidth targetHeight : ℕ) :
    (HUGE_IMAGE_THRESHOLD < fileSize →
      chooseStrategy fileSize width height targetWidth targetHeight = .chunked) ∧
    (fileSize ≤ HUGE_IMAGE_THRESHOLD →
      (LARGE_IMAGE_THRESHOLD < fileSize ∨ targetWidth * 3 < width ∨
        targetHeight * 3 < height) →
      chooseStrategy fileSize width height targetWidth targetHeight = .multistep) ∧
    (fileSize ≤ HUGE_IMAGE_THRESHOLD → fileSize ≤ LARGE_IMAGE_THRESHOLD →
      width ≤ targetWidth * 3 → height ≤ targetHeight * 3 →
      chooseStrategy fileSize width height targetWidth targetHeight = .direct) := by
  unfold chooseStrategy
  refine ⟨fun h1 => ?_, fun h1 h2 => ?_, fun h1 h2 h3 h4 => ?_⟩
  · rw [if_pos h1]
  · rw [if_neg (not_lt.mpr h1), if_pos h2]
  · rw [if_neg (not_lt.mpr h1),
      if_neg (by simp only [not_or, not_lt]; exact ⟨h2, h3, h4⟩)]

/-- C4 witness: one concrete invocation per row of the decision table. -/
theorem c4_strategy_decision_table_witness :
    chooseStrategy (30 * 1024 * 1024 + 1) 100 100 50 50 = .chunked ∧
    chooseStrategy 1000 1000 1000 100 100 = .multistep ∧
    chooseStrategy 1000 100 100 100 100 = .direct :=
  ⟨(c4_strategy_decision_table _ _ _ _ _).1 (by norm_num [HUGE_IMAGE_THRESHOLD]),
   (c4_strategy_decision_table _ _ _ _ _).2.1 (by norm_num [HUGE_IMAGE_THRESHOLD])
     (by norm_num [LARGE_IMAGE_THRESHOLD]),
   (c4_strategy_decision_table _ _ _ _ _).2.2 (by norm_num [HUGE_IMAGE_THRESHOLD])
     (by norm_num [LARGE_IMAGE_THRESHOLD]) (by norm_num) (by norm_num)⟩

/-! ## Claim C5 -/

/-- C5: for `1 ≤ target ≤ source` on both axes the halving loop (each
iteration `next = max(target, round(current / 2))` per axis) terminates
within `srcW + srcH` iterations, exiting with both axes within 2× of the
target, and the final exact-size pass makes the output exactly the target
dimensions. -/
theorem c5_multistep_terminates_exact (srcWidth srcHeight targetWidth targetHeight : ℕ)
    (h1 : 1 ≤ targetWidth) (h2 : targetWidth ≤ srcWidth)
    (h3 : 1 ≤ targetHeight) (h4 : targetHeight ≤ srcHeight) :
    (multistepLoop targetWidth targetHeight (srcWidth + srcHeight) srcWidth srcHeight).1 ≤
      targetWidth * 2 ∧
    (multistepLoop targetWidth targetHeight (srcWidth + srcHeight) srcWidth srcHeight).2 ≤
      targetHeight * 2 ∧
    processWithSteps srcWidth srcHeight targetWidth targetHeight =
      (targetWidth, targetHeight) := by
  obtain ⟨-, hb, -, hd⟩ := multistepLoop_exits targetWidth targetHeight h1 h3
    (srcWidth + srcHeight) srcWidth srcHeight h2 h4 (by omega)
  exact ⟨hb, hd, processWithSteps_output _ _ _ _⟩

/-- C5 witness: a 1000×600 source stepped down toward 100×50. -/
theorem c5_multistep_terminates_exact_witness :
    (multistepLoop 100 50 (1000 + 600) 1000 600).1 ≤ 100 * 2 ∧
    (multistepLoop 100 50 (1000 + 600) 1000 600).2 ≤ 50 * 2 ∧
    processWithSteps 1000 600 100 50 = (100, 50) :=
  c5_multistep_terminates_exact 1000 600 100 50 (by norm_num) (by norm_num)
    (by norm_num) (by norm_num)

/-! ## Claims C6 and C7: chunk destination geometry -/

/-- Grid index validity, `c < Math.ceil(src / CHUNK_SIZE)`, in source pixels. -/
theorem lt_of_lt_chunksCount {c n : ℕ} (h : c < chunksCount n) : c * CHUNK_SIZE < n := by
  simp only [chunksCount, CHUNK_SIZE] at h ⊢
  omega

/-- Axis analysis of a chunk's destination interval when the scale maps the
chunk edge to an integer length `a` (`CHUNK_SIZE * t = a * src`): the offset
is exactly `c * a` and the clamped extent is between 1 and `a`. -/
theorem chunkAxis (src t a c : ℕ) (hsrc : 1 ≤ src) (ha : 1 ≤ a)
    (hdvd : CHUNK_SIZE * t = a * src) (hc : c * CHUNK_SIZE < src) :
    jsRound (((c * CHUNK_SIZE : ℕ) : ℚ) * ((t : ℚ) / (src : ℚ))) = ((c * a : ℕ) : ℤ) ∧
    max 1 (jsRound (((min CHUNK_SIZE (src - c * CHUNK_SIZE) : ℕ) : ℚ) *
        ((t : ℚ) / (src : ℚ)))) ≤ (a : ℤ) := by
  have hsrc0 : ((src : ℕ) : ℚ) ≠ 0 := Nat.cast_ne_zero.mpr (by omega)
  have hd : (CHUNK_SIZE : ℚ) * (t : ℚ) = (a : ℚ) * (src : ℚ) := by exact_mod_cast hdvd
  have ht : 1 ≤ t := by
    rcases Nat.eq_zero_or_pos t with h0 | h0
    · subst h0
      simp only [Nat.mul_zero] at hdvd
      have := hdvd.symm
      rcases Nat.mul_eq_zero.mp this with h | h <;> omega
    · exact h0
  constructor
  · have key : ((c * CHUNK_SIZE : ℕ) : ℚ) * ((t : ℚ) / (src : ℚ)) = ((c * a : ℕ) : ℚ) := by
      push_cast
      field_simp
      linear_combination (c : ℚ) * hd
    rw [key, jsRound_natCast]
  · rcases le_or_lt CHUNK_SIZE (src - c * CHUNK_SIZE) with hfull | hpart
    · rw [min_eq_left hfull]
      have key : ((CHUNK_SIZE : ℕ) : ℚ) * ((t : ℚ) / (src : ℚ)) = ((a : ℕ) : ℚ) := by
        field_simp
        linear_combination hd
      rw [key, jsRound_natCast]
      have h1a : (1 : ℤ) ≤ (a : ℤ) := by exact_mod_cast ha
      exact max_le h1a le_rfl
    · rw [min_eq_right hpart.le]
      have hca : c * a < t := by
        have h1 : (c * a) * src < t * src := by
          calc (c * a) * src = c * (a * src) := by ring
          _ = c * (CHUNK_SIZE * t) := by rw [hdvd]
          _ = (c * CHUNK_SIZE) * t := by ring
          _ < src * t := mul_lt_mul_of_pos_right hc (by omega)
          _ = t * src := by ring
        exact lt_of_mul_lt_mul_right h1 (Nat.zero_le src)
      have key : ((src - c * CHUNK_SIZE : ℕ) : ℚ) * ((t : ℚ) / (src : ℚ)) =
          ((t - c * a : ℕ) : ℚ) := by
        push_cast [Nat.cast_sub hc.le, Nat.cast_sub hca.le]
        field_simp
        linear_combination (-(c : ℚ)) * hd
      rw [key, jsRound_natCast]
      have hub : t - c * a ≤ a := by
        have hexp : (c + 1) * CHUNK_SIZE = c * CHUNK_SIZE + CHUNK_SIZE := by ring
        have hsrcub : src < (c + 1) * CHUNK_SIZE := by omega
        have h2 : t * src < ((c + 1) * a) * src := by
          calc t * src = src * t := by ring
          _ < ((c + 1) * CHUNK_SIZE) * t := mul_lt_mul_of_pos_right hsrcub (by omega)
          _ = (c + 1) * (CHUNK_SIZE * t) := by ring
          _ = (c + 1) * (a * src) := by rw [hdvd]
          _ = ((c + 1) * a) * src := by ring
        have h3 : t < (c + 1) * a := lt_of_mul_lt_mul_right h2 (Nat.zero_le src)
        have h4 : (c + 1) * a = c * a + a := by ring
        omega
      have h1a : (1 : ℤ) ≤ (a : ℤ) := by exact_mod_cast ha
      have h5 : ((t - c * a : ℕ) : ℤ) ≤ (a : ℤ) := by exact_mod_cast hub
      exact max_le h1a h5

/-- Along one axis, under integer chunk-edge scaling, the destination
interval of chunk `c` ends no later than the one of chunk `c' > c` starts. -/
theorem chunkAxis_separated (src t a c c' : ℕ) (hsrc : 1 ≤ src) (ha : 1 ≤ a)
    (hdvd : CHUNK_SIZE * t = a * src) (hc : c * CHUNK_SIZE < src)
    (hc' : c' * CHUNK_SIZE < src) (hlt : c < c') :
    jsRound (((c * CHUNK_SIZE : ℕ) : ℚ) * ((t : ℚ) / (src : ℚ))) +
      max 1 (jsRound (((min CHUNK_SIZE (src - c * CHUNK_SIZE) : ℕ) : ℚ) *
        ((t : ℚ) / (src : ℚ)))) ≤
    jsRound (((c' * CHUNK_SIZE : ℕ) : ℚ) * ((t : ℚ) / (src : ℚ))) := by
  obtain ⟨hx, hwid⟩ := chunkAxis src t a c hsrc ha hdvd hc
  obtain ⟨hx', -⟩ := chunkAxis src t a c' hsrc ha hdvd hc'
  rw [hx, hx']
  have hstep : c * a + a ≤ c' * a := by
    calc c * a + a = (c + 1) * a := by ring
    _ ≤ c' * a := Nat.mul_le_mul_right a (by omega)
  have hstep' : ((c * a : ℕ) : ℤ) + (a : ℤ) ≤ ((c' * a : ℕ) : ℤ) := by exact_mod_cast hstep
  omega

/-- C6 counterexample: an 8192×2048 source resized to 1×512 and processed in
2048-pixel chunks gives the chunks at grid positions (0,0) and (1,0) the
*same* destination rectangle `{x=0, y=0, w=1, h=512}` (the sub-pixel-wide
tile is widened to 1 by the `Math.max(1, …)` clamp and its x-offset rounds
to 0), so the destination rectangles of distinct chunks are not pairwise
disjoint and the final surface depends on processing order. -/
theorem c6_counterexample :
    0 < chunksCount 8192 ∧ 1 < chunksCount 8192 ∧ 0 < chunksCount 2048 ∧
    ((0 : ℕ), (0 : ℕ)) ≠ ((1 : ℕ), (0 : ℕ)) ∧
    ¬ rectDisjoint (chunkRect 8192 2048 1 512 0 0) (chunkRect 8192 2048 1 512 1 0) := by
  refine ⟨by norm_num [chunksCount, CHUNK_SIZE], by norm_num [chunksCount, CHUNK_SIZE],
    by norm_num [chunksCount, CHUNK_SIZE], by decide, ?_⟩
  have h0 : chunkRect 8192 2048 1 512 0 0 = ⟨0, 0, 1, 512⟩ := by
    norm_num [chunkRect, jsRound_def, CHUNK_SIZE, min_def]
  have h1 : chunkRect 8192 2048 1 512 1 0 = ⟨0, 0, 1, 512⟩ := by
    norm_num [chunkRect, jsRound_def, CHUNK_SIZE, min_def]
  rw [h0, h1]
  norm_num [rectDisjoint]

/-- C6 (amended): distinct chunks write pairwise disjoint destination
rectangles *provided* the scale factors map the chunk edge to integer
destination lengths, i.e. `CHUNK_SIZE * targetW = a * srcW` and
`CHUNK_SIZE * targetH = b * srcH` for positive integers `a`, `b`; without
that divisibility, rounding can make rectangles of distinct chunks overlap
(see the counterexample), so order-independence of composition is not
guaranteed in general. -/
theorem c6_disjoint_integer_scale (srcWidth srcHeight targetWidth targetHeight a b
    cx cy cx' cy' : ℕ)
    (hsW : 1 ≤ srcWidth) (hsH : 1 ≤ srcHeight) (ha : 1 ≤ a) (hb : 1 ≤ b)
    (hWdvd : CHUNK_SIZE * targetWidth = a * srcWidth)
    (hHdvd : CHUNK_SIZE * targetHeight = b * srcHeight)
    (hcx : cx < chunksCount srcWidth) (hcy : cy < chunksCount srcHeight)
    (hcx' : cx' < chunksCount srcWidth) (hcy' : cy' < chunksCount srcHeight)
    (hne : (cx, cy) ≠ (cx', cy')) :
    rectDisjoint (chunkRect srcWidth srcHeight targetWidth targetHeight cx cy)
      (chunkRect srcWidth srcHeight targetWidth targetHeight cx' cy') := by
  have hne' : cx ≠ cx' ∨ cy ≠ cy' := by
    by_contra hcon
    push_neg at hcon
    exact hne (by rw [hcon.1, hcon.2])
  simp only [rectDisjoint, chunkRect]
  rcases hne' with hx | hy
  · rcases lt_or_gt_of_ne hx with hlt | hlt
    · exact Or.inl (chunkAxis_separated srcWidth targetWidth a cx cx' hsW ha hWdvd
        (lt_of_lt_chunksCount hcx) (lt_of_lt_chunksCount hcx') hlt)
    · exact Or.inr (Or.inl (chunkAxis_separated srcWidth targetWidth a cx' cx hsW ha hWdvd
        (lt_of_lt_chunksCount hcx') (lt_of_lt_chunksCount hcx) hlt))
  · rcases lt_or_gt_of_ne hy with hlt | hlt
    · exact Or.inr (Or.inr (Or.inl (chunkAxis_separated srcHeight targetHeight b cy cy'
        hsH hb hHdvd (lt_of_lt_chunksCount hcy) (lt_of_lt_chunksCount hcy') hlt)))
    · exact Or.inr (Or.inr (Or.inr (chunkAxis_separated srcHeight targetHeight b cy' cy
        hsH hb hHdvd (lt_of_lt_chunksCount hcy') (lt_of_lt_chunksCount hcy) hlt)))

/-- C6 witness: a 4096×4096 source resized to 2×2 (`a = b = 1`): the chunks
at grid positions (0,0) and (1,0) write disjoint destination rectangles. -/
theorem c6_disjoint_integer_scale_witness :
    CHUNK_SIZE * 2 = 1 * 4096 ∧
    rectDisjoint (chunkRect 4096 4096 2 2 0 0) (chunkRect 4096 4096 2 2 1 0) :=
  ⟨by norm_num [CHUNK_SIZE],
   c6_disjoint_integer_scale 4096 4096 2 2 1 1 0 0 1 0 (by norm_num) (by norm_num)
     le_rfl le_rfl (by norm_num [CHUNK_SIZE]) (by norm_num [CHUNK_SIZE])
     (by norm_num [chunksCount, CHUNK_SIZE]) (by norm_num [chunksCount, CHUNK_SIZE])
     (by norm_num [chunksCount, CHUNK_SIZE]) (by norm_num [chunksCount, CHUNK_SIZE])
     (by decide)⟩

/-- C7 counterexample (to the reachability half of the claim): in the extreme
downscale 8192×8192 → 1×1 the full tile at grid position (1,1) maps to a
quarter destination pixel — `Math.round(2048 * (1/8192)) = 0` — yet it is
*not* skipped: the `Math.max(1, …)` clamp raises both extents to 1 before
the `dw < 1 || dh < 1` test, so the draw happens anyway. -/
theorem c7_counterexample :
    jsRound ((2048 : ℚ) * (1 / 8192)) = 0 ∧
    chunkSkipped (chunkRect 8192 8192 1 1 1 1) = false := by
  constructor
  · norm_num [jsRound_def]
  · have h : chunkRect 8192 8192 1 1 1 1 = ⟨0, 0, 1, 1⟩ := by
      norm_num [chunkRect, jsRound_def, CHUNK_SIZE, min_def]
    rw [h]
    norm_num [chunkSkipped]

/-- C7 (amended): the `dw < 1 || dh < 1` skip branch is unreachable dead
code — on every input the destination extents are clamped to at least 1
(`Math.max(1, …)`) before the test, so no tile is ever skipped; even a tile
whose rectangle would degenerate to zero area is drawn at 1-pixel extent. -/
theorem c7_skip_branch_unreachable (srcWidth srcHeight targetWidth targetHeight cx cy : ℕ) :
    chunkSkipped (chunkRect srcWidth srcHeight targetWidth targetHeight cx cy) = false := by
  simp only [chunkSkipped, chunkRect, Bool.or_eq_false_iff, decide_eq_false_iff_not, not_lt]
  exact ⟨le_max_left 1 _, le_max_left 1 _⟩

/-! ## Claim C8 -/

/-- C8: the optimizer computes its initial quality as
`qualityHigh + (complexity − 0.5) × 0.1` clamped to `[0.7, 0.98]`, performs
one encode at it, and returns that encoding immediately (a single attempt)
whenever its byte size is within the target byte budget. -/
theorem c8_first_encode_within_budget (encode : ℚ → ℚ) (targetSize complexity : ℚ)
    (hfit : encode (adjustedQuality complexity) ≤ targetSize) :
    adjustedQuality complexity =
      max (7 / 10) (min (49 / 50) (QUALITY_HIGH + (complexity - 1 / 2) * (1 / 10))) ∧
    optimizeBlobSize encode targetSize complexity =
      ((adjustedQuality complexity, encode (adjustedQuality complexity)),
        [(adjustedQuality complexity, encode (adjustedQuality complexity))]) := by
  refine ⟨rfl, ?_⟩
  simp only [optimizeBlobSize]
  rw [if_pos hfit]

/-- C8 witness: a constant 50-byte encoder against a 100-byte budget. -/
theorem c8_first_encode_within_budget_witness :
    (fun _ : ℚ => (50 : ℚ)) (adjustedQuality (1 / 2)) ≤ 100 ∧
    optimizeBlobSize (fun _ => 50) 100 (1 / 2) =
      ((adjustedQuality (1 / 2), 50), [(adjustedQuality (1 / 2), 50)]) :=
  ⟨by norm_num,
   (c8_first_encode_within_budget (fun _ => 50) 100 (1 / 2) (by norm_num)).2⟩

/-! ## Claim C9 -/

/-- C9 counterexample: with the encoder oracle `encOracle` (budget 100,
complexity 0.5, so adjusted quality 19/20 and steps
19/20, 171/200, 19/25, 22/25, 3/4, 7/10), the full run encodes at qualities
19/20, 19/20, 171/200, 22/25 — every attempt exceeding the 100-byte budget —
and returns the attempt at quality 22/25. The smallest-quality attempt made
was at 171/200 ≠ 22/25, so "when no attempt ever fit the budget, the
optimizer returns the smallest-quality attempt" is false; and since the
attempt (19/20, 104) lay within the 5% tolerance band yet the lower-quality
(22/25, 102) is returned, the result is not the best-so-far under the
tolerant reading of "fit" either. -/
theorem c9_counterexample :
    optimizeBlobSize encOracle 100 (1 / 2) =
      ((22 / 25, 102),
        [(19 / 20, 104), (19 / 20, 104), (171 / 200, 106), (22 / 25, 102)]) ∧
    (100 : ℚ) < 102 ∧ (100 : ℚ) < 104 ∧ (100 : ℚ) < 106 ∧
    (171 / 200 : ℚ) < 22 / 25 ∧ (171 / 200 : ℚ) < 19 / 20 ∧
    (104 : ℚ) ≤ 100 * (1 + TOLERANCE) ∧ (22 / 25 : ℚ) < 19 / 20 := by
  refine ⟨?_, by norm_num, by norm_num, by norm_num, by norm_num, by norm_num,
    by norm_num [TOLERANCE], by norm_num⟩
  norm_num [optimizeBlobSize, adjustedQuality, QUALITY_HIGH, QUALITY_MEDIUM, TOLERANCE,
    progressiveStep, encOracle, List.foldl]

/-- Helper: once the search state has `minQ = maxQ = bestQ = q` with
`encode q = s` over the tolerance-expanded budget, one progressive step
leaves the state locked at `q` (only possibly appending another `(q, s)`
attempt). -/
theorem progressiveStep_locked (encode : ℚ → ℚ) (t q s sq : ℚ) (st : OptState)
    (hbig : t * (1 + TOLERANCE) < s) (henc : encode q = s)
    (hst : st.minQ = q ∧ st.maxQ = q ∧ st.bestQ = q ∧ st.bestSize = s ∧
      ∀ p ∈ st.attempts, p = (q, s)) :
    (progressiveStep encode t st sq).minQ = q ∧
    (progressiveStep encode t st sq).maxQ = q ∧
    (progressiveStep encode t st sq).bestQ = q ∧
    (progressiveStep encode t st sq).bestSize = s ∧
    ∀ p ∈ (progressiveStep encode t st sq).attempts, p = (q, s) := by
  obtain ⟨h1, h2, h3, h4, h5⟩ := hst
  simp only [progressiveStep]
  by_cases hskip : sq < st.minQ ∨ sq > st.maxQ
  · rw [if_pos hskip]
    exact ⟨h1, h2, h3, h4, h5⟩
  · rw [if_neg hskip]
    push_neg at hskip
    have hsq : sq = q := le_antisymm (h2 ▸ hskip.2) (h1 ▸ hskip.1)
    subst hsq
    rw [henc, if_neg (not_le.mpr hbig)]
    refine ⟨rfl, h2, h3, h4, ?_⟩
    intro p hp
    simp only [List.mem_append, List.mem_singleton] at hp
    rcases hp with hp | hp
    · exact h5 p hp
    · exact hp

/-- Helper: the locked state is preserved by the whole progressive loop. -/
theorem foldl_progressiveStep_locked (encode : ℚ → ℚ) (t q s : ℚ)
    (hbig : t * (1 + TOLERANCE) < s) (henc : encode q = s) :
    ∀ (L : List ℚ) (st : OptState),
      (st.minQ = q ∧ st.maxQ = q ∧ st.bestQ = q ∧ st.bestSize = s ∧
        ∀ p ∈ st.attempts, p = (q, s)) →
      ((L.foldl (progressiveStep encode t) st).minQ = q ∧
        (L.foldl (progressiveStep encode t) st).maxQ = q ∧
        (L.foldl (progressiveStep encode t) st).bestQ = q ∧
        (L.foldl (progressiveStep encode t) st).bestSize = s ∧
        ∀ p ∈ (L.foldl (progressiveStep encode t) st).attempts, p = (q, s)) := by
  intro L
  induction L with
  | nil => intro st hst; simpa using hst
  | cons a L ih =>
    intro st hst
    simp only [List.foldl_cons]
    exact ih _ (progressiveStep_locked encode t q s a st hbig henc hst)

/-- Helper: from a locked state the binary search keeps re-encoding at `q`
(the midpoint of `[q, q]`), never fits, and finally returns `(q, s)`. -/
theorem binarySearchLoop_locked (encode : ℚ → ℚ) (t q s : ℚ)
    (hbig : t * (1 + TOLERANCE) < s) (henc : encode q = s) :
    ∀ (n : ℕ) (st : OptState),
      (st.minQ = q ∧ st.maxQ = q ∧ st.bestQ = q ∧ st.bestSize = s ∧
        ∀ p ∈ st.attempts, p = (q, s)) →
      (binarySearchLoop encode t n st).1 = (q, s) ∧
      ∀ p ∈ (binarySearchLoop encode t n st).2, p = (q, s) := by
  intro n
  induction n with
  | zero =>
    intro st hst
    obtain ⟨h1, h2, h3, h4, h5⟩ := hst
    simp only [binarySearchLoop]
    exact ⟨by rw [h3, h4], h5⟩
  | succ n ih =>
    intro st hst
    obtain ⟨h1, h2, h3, h4, h5⟩ := hst
    simp only [binarySearchLoop]
    have hmid : (st.minQ + st.maxQ) / 2 = q := by rw [h1, h2]; ring
    rw [hmid, henc, if_pos hbig]
    refine ih _ ⟨h1, rfl, h3, h4, ?_⟩
    intro p hp
    simp only [List.mem_append, List.mem_singleton] at hp
    rcases hp with hp | hp
    · exact h5 p hp
    · exact hp

/-- C9 (amended): when the initial encode at the adjusted base quality
exceeds `budget × (1 + tolerance)` — hence no attempt ever fits the
budget — every encode attempt of the run happens at that same adjusted
quality (the progressive loop raises `minQuality` to it and the binary
search's bracket collapses), and the optimizer returns that initial
over-budget attempt rather than failing; it does not return a
smallest-quality attempt in any stronger sense, since no other quality is
ever tried. -/
theorem c9_degradation_amended (encode : ℚ → ℚ) (targetSize complexity : ℚ)
    (htpos : 0 < targetSize)
    (hbig : targetSize * (1 + TOLERANCE) < encode (adjustedQuality complexity)) :
    (optimizeBlobSize encode targetSize complexity).1 =
      (adjustedQuality complexity, encode (adjustedQuality complexity)) ∧
    ∀ p ∈ (optimizeBlobSize encode targetSize complexity).2,
      p = (adjustedQuality complexity, encode (adjustedQuality complexity)) := by
  set q := adjustedQuality complexity with hq
  set s := encode q with hs
  have hq07 : (7 : ℚ) / 10 ≤ q := by
    rw [hq]
    unfold adjustedQuality
    exact le_max_left _ _
  have htle : targetSize ≤ targetSize * (1 + TOLERANCE) := by
    have h20 : (1 : ℚ) ≤ 1 + TOLERANCE := by norm_num [TOLERANCE]
    nlinarith [htpos.le, h20]
  have hnotfit : ¬ (s ≤ targetSize) := not_le.mpr (lt_of_le_of_lt htle hbig)
  simp only [optimizeBlobSize]
  rw [if_neg hnotfit]
  have hstep1 : progressiveStep encode targetSize ⟨1 / 2, q, q, s, [(q, s)]⟩ q =
      ⟨q, q, q, s, [(q, s), (q, s)]⟩ := by
    have hskip : ¬ (q < (1 : ℚ) / 2 ∨ q > q) := by
      rintro (h | h)
      · linarith
      · exact lt_irrefl _ h
    simp only [progressiveStep]
    rw [← hs, if_neg hskip, if_neg (not_le.mpr hbig)]
    rfl
  rw [List.foldl_cons, hstep1]
  have hlock := foldl_progressiveStep_locked encode targetSize q s hbig hs.symm
    [q * (9 / 10), q * (4 / 5), QUALITY_MEDIUM, 3 / 4, 7 / 10]
    ⟨q, q, q, s, [(q, s), (q, s)]⟩
    ⟨rfl, rfl, rfl, rfl, by
      intro p hp
      simp only [List.mem_cons, List.not_mem_nil, or_false] at hp
      rcases hp with hp | hp <;> exact hp⟩
  obtain ⟨hm1, hm2, hm3, hm4, hm5⟩ := hlock
  rw [if_pos (by rw [hm4]; exact hbig)]
  exact binarySearchLoop_locked encode targetSize q s hbig hs.symm 5 _
    ⟨hm1, hm2, hm3, hm4, hm5⟩

/-- C9 witness: a constant 200-byte encoder against a 100-byte budget. -/
theorem c9_degradation_amended_witness :
    (0 : ℚ) < 100 ∧
    (100 : ℚ) * (1 + TOLERANCE) < (fun _ : ℚ => (200 : ℚ)) (adjustedQuality (1 / 2)) ∧
    (optimizeBlobSize (fun _ => 200) 100 (1 / 2)).1 = (adjustedQuality (1 / 2), 200) :=
  ⟨by norm_num, by norm_num [TOLERANCE],
   (c9_degradation_amended (fun _ => 200) 100 (1 / 2) (by norm_num)
     (by norm_num [TOLERANCE])).1⟩

/-! ## Claim C10 -/

/-- The bump allocator hands out the current `allocPtr` whenever it
succeeds. -/
theorem wasmAlloc_ptr_eq {growOk : Bool} {size : ℕ} {st : WasmHeap} {p : ℕ}
    {st' : WasmHeap} (h : wasmAlloc growOk size st = some (p, st')) :
    p = st.allocPtr := by
  simp only [wasmAlloc] at h
  split_ifs at h <;> simp_all

/-- C10: when the module does not export `alloc_memory`, every call to
`processImageDataWithWasm` returns `null`: the per-call reset puts the bump
pointer at offset 0, so the first bump allocation returns pointer 0, which
the `srcPtr === 0` check treats as an allocation failure — the accelerated
path can never succeed via the bump-allocator fallback (and all other
branches also return `null`). -/
theorem c10_no_alloc_export_forces_null (hasMemory hasResizeFn growOk : Bool)
    (allocMemoryFn : ℕ → ℕ) (resizeErrorCode srcSize dstSize heapCapacity : ℕ) :
    processImageDataWithWasm hasMemory hasResizeFn false growOk allocMemoryFn
      resizeErrorCode srcSize dstSize heapCapacity = none := by
  unfold processImageDataWithWasm
  cases hasMemory with
  | false => simp
  | true =>
    cases hasResizeFn with
    | false => simp
    | true =>
      simp only [Bool.not_true, Bool.false_eq_true, if_false, Bool.true_eq_false]
      rcases hsrc : wasmAlloc growOk srcSize ⟨0, heapCapacity⟩ with - | ⟨p, st1⟩
      · simp [hsrc]
      · have hp : p = 0 := wasmAlloc_ptr_eq hsrc
        rcases hdst : wasmAlloc growOk dstSize st1 with - | ⟨p2, st2⟩
        · simp [hsrc, hdst]
        · simp [hsrc, hdst, hp]

/-! ## Claim C1 -/

/-- C1 counterexample: a 1000-byte 10000×6000 source (60 MP > 50 MP ceiling)
*is* rejected with the resolution error, but its run has already decoded the
file for the preview, allocated an 800×480 preview pixel buffer, and decoded
the full image before the pixel-count check fires — contradicting "before
any decode is attempted and before any pixel buffer is allocated". -/
theorem c1_counterexample :
    (processImageRun 1000 10000 6000 3840 2160 none none).2 =
      some .resolutionTooHigh ∧
    PipelineEvent.decode ∈ (processImageRun 1000 10000 6000 3840 2160 none none).1 ∧
    PipelineEvent.allocSurface 800 480 ∈
      (processImageRun 1000 10000 6000 3840 2160 none none).1 := by
  have h : processImageRun 1000 10000 6000 3840 2160 none none =
      ([.decode, .allocSurface 800 480, .encode, .decode], some .resolutionTooHigh) := by
    norm_num [processImageRun, calculateDimensions, jsOrDefault, jsRound_def, min_def,
      MAX_FILE_SIZE, MAX_PIXELS, PREVIEW_MAX_WIDTH, PREVIEW_MAX_HEIGHT]
  rw [h]
  exact ⟨rfl, by simp, by simp⟩

/-- C1 (amended): a source whose pixel count exceeds `MAX_PIXELS` (and whose
byte size passes the byte ceiling) is rejected with the resolution-too-high
error, but only *after* the preview decode, the preview-canvas pixel-buffer
allocation, the preview encode and the full decode; no main resize surface
is allocated and no further work happens after the rejection. -/
theorem c1_pixel_ceiling_after_decode (fileSize width height maxWidth maxHeight : ℕ)
    (sW sH : Option ℕ) (hfs : fileSize ≤ MAX_FILE_SIZE)
    (hpx : MAX_PIXELS < width * height) :
    processImageRun fileSize width height maxWidth maxHeight sW sH =
      ([.decode,
        .allocSurface
          (calculateDimensions width height PREVIEW_MAX_WIDTH PREVIEW_MAX_HEIGHT sW sH).1
          (calculateDimensions width height PREVIEW_MAX_WIDTH PREVIEW_MAX_HEIGHT sW sH).2,
        .encode, .decode], some .resolutionTooHigh) := by
  simp only [processImageRun]
  rw [if_neg (not_lt.mpr hfs), if_pos hpx]
  rfl

/-- C1 witness: the 10000×6000 source of the counterexample, via the amended
theorem. -/
theorem c1_pixel_ceiling_after_decode_witness :
    1000 ≤ MAX_FILE_SIZE ∧ MAX_PIXELS < 10000 * 6000 ∧
    processImageRun 1000 10000 6000 3840 2160 none none =
      ([.decode,
        .allocSurface
          (calculateDimensions 10000 6000 PREVIEW_MAX_WIDTH PREVIEW_MAX_HEIGHT none none).1
          (calculateDimensions 10000 6000 PREVIEW_MAX_WIDTH PREVIEW_MAX_HEIGHT none none).2,
        .encode, .decode], some .resolutionTooHigh) :=
  ⟨by norm_num [MAX_FILE_SIZE], by norm_num [MAX_PIXELS],
   c1_pixel_ceiling_after_decode 1000 10000 6000 3840 2160 none none
     (by norm_num [MAX_FILE_SIZE]) (by norm_num [MAX_PIXELS])⟩

end GenresFox
